import Mathlib

/-!
Shallow embedding of `src/sequence.rs` of the biocirc repository.

Modelling conventions:
- A Rust `String` holding sequence text is embedded as `List Char`; the
  domain alphabets (DNA/RNA bases, amino-acid letters) are ASCII, so
  Rust's byte-indexed operations are reflected through `Char.utf8Size`.
- Rust `String::to_uppercase` is embedded characterwise with
  `Char.toUpper`; on the ASCII alphabets of this domain the two coincide.
- Rust `String::replace` with a single-character pattern is embedded as a
  characterwise substitution, which is equivalent for one-character
  patterns.
- Recoverable `Result<_, String>` values become `Except String _`;
  operations that can also panic (`Add` on mismatched biotypes, the
  `HashMap` index in `translate`) return `Outcome`, whose `fatal`
  constructor models a Rust panic.
- `HashMap` built from a duplicate-free constant list is embedded as
  association-list lookup (`List.lookup`), which agrees with the map on
  duplicate-free data.
-/

/-- The `BioType` enum of `sequence.rs`. -/
inductive BioType where
  | Dna
  | Rna
  | Protein
deriving DecidableEq, Repr

/-- The `Display` impl for `BioType`. -/
def BioType.display : BioType → String
  | .Dna => "DNA"
  | .Rna => "RNA"
  | .Protein => "PROTEIN"

/-- The `Sequence` struct: a biotype tag plus the text buffer. -/
structure Sequence where
  biotype : BioType
  seq : List Char
deriving DecidableEq, Repr

/-- Rust `String::to_uppercase`, characterwise on the ASCII domain alphabet. -/
def upperChars (l : List Char) : List Char := l.map Char.toUpper

/-- Rust `String::replace` with a one-character pattern `a` and replacement `b`. -/
def replaceChar (a b : Char) (l : List Char) : List Char :=
  l.map fun c => if c = a then b else c

/-- Byte length of the buffer, as Rust `String::len` reports it. -/
def Sequence.len (s : Sequence) : Nat := (s.seq.map Char.utf8Size).sum

/-- Byte offset of the start of the character at (character) position `k`,
as produced by Rust `str::char_indices`. -/
def bytePos (l : List Char) (k : Nat) : Nat := ((l.take k).map Char.utf8Size).sum

/-- The rebuild loop of `Sequence::change`: walk the characters with their
byte offsets (`char_indices`), replacing the character whose byte offset
equals `index`, copying every other character. -/
def changeChars (off index : Nat) (ch : Char) : List Char → List Char
  | [] => []
  | c :: cs => (if off = index then ch else c) :: changeChars (off + c.utf8Size) index ch cs

/-- `Sequence::change(index, ch)`. -/
def Sequence.change (s : Sequence) (index : Nat) (ch : Char) : Sequence :=
  ⟨s.biotype, changeChars 0 index ch s.seq⟩

/-- Result of an operation that may succeed, return a recoverable error
message, or panic (`fatal`). -/
inductive Outcome where
  | ok (s : Sequence)
  | err (msg : String)
  | fatal (msg : String)
deriving DecidableEq, Repr

/-- The `impl Add for Sequence`: same biotypes concatenate, a mismatch
panics with a message naming both biotypes. -/
def Sequence.add (a b : Sequence) : Outcome :=
  if a.biotype = b.biotype then
    .ok ⟨a.biotype, a.seq ++ b.seq⟩
  else
    .fatal ("类型错误" ++ a.biotype.display ++ "加到" ++ b.biotype.display)

/-- The `impl<T: Into<String>> Add<T> for Sequence`: always succeeds,
keeps the left operand's biotype, appends the converted text. -/
def Sequence.addText (a : Sequence) (t : List Char) : Sequence :=
  ⟨a.biotype, a.seq ++ t⟩

/-- The `impl PartialEq for Sequence`: equality compares only the text. -/
def Sequence.beqSeq (a b : Sequence) : Bool := a.seq == b.seq

/-- `Sequence::transcribe`: Dna only; uppercase then replace T with U,
result tagged Rna. -/
def Sequence.transcribe (s : Sequence) : Except String Sequence :=
  match s.biotype with
  | .Dna => .ok ⟨.Rna, replaceChar 'T' 'U' (upperChars s.seq)⟩
  | _ => .error ("你不能转录一段" ++ s.biotype.display ++ "序列")

/-- `Sequence::back_transcription`: Rna only; uppercase then replace U
with T; the result keeps the `Rna` tag (as the source does). -/
def Sequence.back_transcription (s : Sequence) : Except String Sequence :=
  match s.biotype with
  | .Rna => .ok ⟨.Rna, replaceChar 'U' 'T' (upperChars s.seq)⟩
  | _ => .error ("你不能逆转录一段" ++ s.biotype.display ++ "序列")

/-- The `DNA_BASE_PAIRING` constant. -/
def DNA_BASE_PAIRING : List (Char × Char) := [('A', 'T'), ('G', 'C'), ('T', 'A'), ('C', 'G')]

/-- The `RNA_BASE_PAIRING` constant. -/
def RNA_BASE_PAIRING : List (Char × Char) := [('A', 'U'), ('G', 'C'), ('U', 'A'), ('C', 'G')]

/-- The base-substitution loop of `Sequence::complementary`: push the
paired base for each character, failing at the first character absent
from the pairing table. -/
def complementChars (table : List (Char × Char)) (name : String) :
    List Char → Except String (List Char)
  | [] => .ok []
  | c :: cs =>
    match List.lookup c table with
    | some d => (complementChars table name cs).map (fun r => d :: r)
    | none => .error ("Invalid " ++ name ++ " base: " ++ c.toString)

/-- The base substitution each valid character undergoes in `complementary`. -/
def compSub (table : List (Char × Char)) (c : Char) : Char :=
  (List.lookup c table).getD c

/-- `Sequence::complementary`. -/
def Sequence.complementary (s : Sequence) : Except String Sequence :=
  match s.biotype with
  | .Dna => (complementChars DNA_BASE_PAIRING "DNA" (upperChars s.seq)).map fun r =>
      (⟨.Dna, r⟩ : Sequence)
  | .Rna => (complementChars RNA_BASE_PAIRING "RNA" (upperChars s.seq)).map fun r =>
      (⟨.Rna, r⟩ : Sequence)
  | .Protein => .error ("你不能反向互补一段 " ++ BioType.Protein.display ++ " 序列")

/-- `Sequence::reverse_complementary`: complementary, then reverse the
character order of the text. -/
def Sequence.reverse_complementary (s : Sequence) : Except String Sequence :=
  (s.complementary).map fun t => ⟨t.biotype, t.seq.reverse⟩

/-- Modelled from the spec: the codon table of `src/codon.rs`, which is
not under `src/`. The spec describes it as "a fixed mapping from exactly
64 three-letter RNA codon strings to either a single amino-acid letter or
the stop marker '*'", with "ATGTTTTAA (start, Phe, Stop)", i.e. the
standard genetic code. -/
def CODON_TABLE : List (String × String) :=
  [("UUU", "F"), ("UUC", "F"), ("UUA", "L"), ("UUG", "L"),
   ("UCU", "S"), ("UCC", "S"), ("UCA", "S"), ("UCG", "S"),
   ("UAU", "Y"), ("UAC", "Y"), ("UAA", "*"), ("UAG", "*"),
   ("UGU", "C"), ("UGC", "C"), ("UGA", "*"), ("UGG", "W"),
   ("CUU", "L"), ("CUC", "L"), ("CUA", "L"), ("CUG", "L"),
   ("CCU", "P"), ("CCC", "P"), ("CCA", "P"), ("CCG", "P"),
   ("CAU", "H"), ("CAC", "H"), ("CAA", "Q"), ("CAG", "Q"),
   ("CGU", "R"), ("CGC", "R"), ("CGA", "R"), ("CGG", "R"),
   ("AUU", "I"), ("AUC", "I"), ("AUA", "I"), ("AUG", "M"),
   ("ACU", "T"), ("ACC", "T"), ("ACA", "T"), ("ACG", "T"),
   ("AAU", "N"), ("AAC", "N"), ("AAA", "K"), ("AAG", "K"),
   ("AGU", "S"), ("AGC", "S"), ("AGA", "R"), ("AGG", "R"),
   ("GUU", "V"), ("GUC", "V"), ("GUA", "V"), ("GUG", "V"),
   ("GCU", "A"), ("GCC", "A"), ("GCA", "A"), ("GCG", "A"),
   ("GAU", "D"), ("GAC", "D"), ("GAA", "E"), ("GAG", "E"),
   ("GGU", "G"), ("GGC", "G"), ("GGA", "G"), ("GGG", "G")]

/-- The codon loop of `Sequence::translate`: read three characters at a
time, stop before a chunk shorter than three; look each triplet up in the
codon table (`none` models the `HashMap` index panic on a missing key);
append the amino-acid code and stop after pushing a stop marker. Returns
the accumulated protein string — which `translate` then discards. -/
def translateCodons : List Char → Option String
  | c1 :: c2 :: c3 :: rest =>
    match List.lookup (String.mk [c1, c2, c3]) CODON_TABLE with
    | none => none
    | some aa => if aa = "*" then some aa else (translateCodons rest).map fun p => aa ++ p
  | _ => some ""

/-- The nucleotide text `translate` prepares before the codon loop: for a
Dna receiver the transcription (`transcribe(&self).unwrap().seq`), for
any other receiver the uppercased text. -/
def prepSeq (s : Sequence) : List Char :=
  if s.biotype = .Dna then replaceChar 'T' 'U' (upperChars s.seq) else upperChars s.seq

/-- `Sequence::translate`: Protein receivers get an error; otherwise the
codon loop runs on the prepared text (a missing codon is a panic), and on
success the function returns the *prepared nucleotide text* labelled
Protein — the computed protein string is discarded. -/
def Sequence.translate (s : Sequence) : Outcome :=
  match s.biotype with
  | .Protein => .err ("你不能翻译一段" ++ BioType.Protein.display ++ "序列")
  | _ =>
    match translateCodons (prepSeq s) with
    | none => .fatal "codon not in table"
    | some _ => .ok ⟨.Protein, prepSeq s⟩

/-- The consecutive full three-character chunks of a text, the codons the
spec speaks of ("codons all present in the codon table"). -/
def chunks3 : List Char → List (List Char)
  | c1 :: c2 :: c3 :: rest => [c1, c2, c3] :: chunks3 rest
  | _ => []

/-! ### Helper lemmas -/

/-- A characterwise map that fixes every character of a list fixes the list. -/
theorem map_id_of_mem {f : Char → Char} :
    ∀ l : List Char, (∀ c ∈ l, f c = c) → l.map f = l
  | [], _ => rfl
  | c :: cs, h => by
    simp only [List.map_cons]
    rw [h c (by simp), map_id_of_mem cs (fun x hx => h x (by simp [hx]))]

theorem bytePos_zero (l : List Char) : bytePos l 0 = 0 := by
  simp [bytePos]

theorem bytePos_succ_cons (c : Char) (cs : List Char) (k : Nat) :
    bytePos (c :: cs) (k + 1) = c.utf8Size + bytePos cs k := by
  simp [bytePos, List.take_succ_cons]

/-- When no character starts at byte offset `index`, the rebuild loop of
`change` copies the buffer unchanged. -/
theorem changeChars_nomatch :
    ∀ (l : List Char) (off index : Nat) (ch : Char),
      (∀ k, k < l.length → off + bytePos l k ≠ index) →
      changeChars off index ch l = l
  | [], _, _, _, _ => rfl
  | c :: cs, off, index, ch, h => by
    have h0 := h 0 (by simp)
    rw [bytePos_zero] at h0
    have htail : ∀ k, k < cs.length → off + c.utf8Size + bytePos cs k ≠ index := by
      intro k hk
      have := h (k + 1) (by simpa using Nat.succ_lt_succ hk)
      rw [bytePos_succ_cons] at this
      omega
    simp only [changeChars, if_neg (by omega : ¬ off = index)]
    rw [changeChars_nomatch cs (off + c.utf8Size) index ch htail]

/-- When the character at position `k` starts at byte offset `index`, the
rebuild loop of `change` replaces exactly that character. -/
theorem changeChars_match :
    ∀ (l : List Char) (off index : Nat) (ch : Char) (k : Nat),
      k < l.length → off + bytePos l k = index →
      changeChars off index ch l = l.set k ch
  | [], _, _, _, k, hk, _ => by simp at hk
  | c :: cs, off, index, ch, 0, _, hpos => by
    rw [bytePos_zero] at hpos
    have hsz := Char.utf8Size_pos c
    have htail : ∀ j, j < cs.length → off + c.utf8Size + bytePos cs j ≠ index := by
      intro j _
      have : bytePos cs j = ((cs.take j).map Char.utf8Size).sum := rfl
      omega
    simp only [changeChars, if_pos (by omega : off = index), List.set_cons_zero]
    rw [changeChars_nomatch cs (off + c.utf8Size) index ch htail]
  | c :: cs, off, index, ch, k + 1, hk, hpos => by
    rw [bytePos_succ_cons] at hpos
    have hsz := Char.utf8Size_pos c
    have hb : 0 ≤ bytePos cs k := Nat.zero_le _
    simp only [changeChars, if_neg (by omega : ¬ off = index), List.set_cons_succ]
    rw [changeChars_match cs (off + c.utf8Size) index ch k (by simpa using hk) (by omega)]

/-- When every character of the text is a key of the pairing table, the
substitution loop succeeds and maps each character through the table. -/
theorem complementChars_ok (table : List (Char × Char)) (name : String) :
    ∀ l : List Char, (∀ c ∈ l, (List.lookup c table).isSome) →
      complementChars table name l = .ok (l.map (compSub table))
  | [], _ => rfl
  | c :: cs, h => by
    obtain ⟨d, hd⟩ := Option.isSome_iff_exists.mp (h c (by simp))
    have ih := complementChars_ok table name cs (fun x hx => h x (by simp [hx]))
    simp [complementChars, hd, ih, compSub, Except.map]

/-- The substitution loop fails at the first character absent from the
pairing table, naming that character. -/
theorem complementChars_error (table : List (Char × Char)) (name : String) :
    ∀ (l : List Char) (c : Char),
      l.find? (fun x => (List.lookup x table).isNone) = some c →
      complementChars table name l = .error ("Invalid " ++ name ++ " base: " ++ c.toString)
  | [], c, h => by simp at h
  | a :: as, c, h => by
    cases hx : List.lookup a table with
    | none =>
      have hac : a = c := by
        simp [List.find?, hx] at h
        exact h
      subst hac
      simp [complementChars, hx]
    | some d =>
      have h' : as.find? (fun x => (List.lookup x table).isNone) = some c := by
        simpa [List.find?, hx] using h
      have ih := complementChars_error table name as c h'
      simp [complementChars, hx, ih, Except.map]

/-- When every full three-character chunk of the text is a key of the
codon table, the codon loop does not hit the missing-key panic. -/
theorem translateCodons_isSome :
    ∀ l : List Char,
      (∀ ch ∈ chunks3 l, (List.lookup (String.mk ch) CODON_TABLE).isSome) →
      (translateCodons l).isSome
  | [], _ => rfl
  | [_], _ => rfl
  | [_, _], _ => rfl
  | c1 :: c2 :: c3 :: rest, h => by
    obtain ⟨aa, haa⟩ := Option.isSome_iff_exists.mp (h [c1, c2, c3] (by simp [chunks3]))
    by_cases hstop : aa = "*"
    · simp [translateCodons, haa, hstop]
    · have ih := translateCodons_isSome rest (fun ch hch => h ch (by simp [chunks3, hch]))
      obtain ⟨p, hp⟩ := Option.isSome_iff_exists.mp ih
      simp [translateCodons, haa, hstop, hp]

/-- On a non-Protein receiver whose prepared text has all its codons in
the table, `translate` succeeds and returns the prepared nucleotide text
labelled Protein. -/
theorem translate_ok (s : Sequence) (hb : s.biotype ≠ .Protein)
    (h : ∀ ch ∈ chunks3 (prepSeq s), (List.lookup (String.mk ch) CODON_TABLE).isSome) :
    s.translate = .ok ⟨.Protein, prepSeq s⟩ := by
  obtain ⟨p, hp⟩ := Option.isSome_iff_exists.mp (translateCodons_isSome _ h)
  obtain ⟨bt, l⟩ := s
  cases bt with
  | Dna => simp [Sequence.translate, hp]
  | Rna => simp [Sequence.translate, hp]
  | Protein => exact absurd rfl hb

/-! ### Claim theorems -/

/-- C9: equality of two Sequences holds exactly when their text buffers
are equal, regardless of biotype: identical text with different biotypes
compares equal, and different text never compares equal. -/
theorem C9_equality_ignores_biotype :
    (∀ a b : Sequence, Sequence.beqSeq a b = true ↔ a.seq = b.seq) ∧
    (∀ (bt1 bt2 : BioType) (t : List Char), Sequence.beqSeq ⟨bt1, t⟩ ⟨bt2, t⟩ = true) ∧
    (∀ a b : Sequence, a.seq ≠ b.seq → Sequence.beqSeq a b = false) := by
  refine ⟨fun a b => ?_, fun bt1 bt2 t => ?_, fun a b h => ?_⟩
  · simp [Sequence.beqSeq]
  · simp [Sequence.beqSeq]
  · simp [Sequence.beqSeq, h]

/-- Witness for C9 at concrete inputs. -/
theorem C9_equality_ignores_biotype_witness :
    Sequence.beqSeq ⟨.Dna, "ATG".toList⟩ ⟨.Rna, "ATG".toList⟩ = true ∧
    Sequence.beqSeq ⟨.Dna, "ATG".toList⟩ ⟨.Dna, "CCT".toList⟩ = false :=
  ⟨C9_equality_ignores_biotype.2.1 .Dna .Rna "ATG".toList,
   C9_equality_ignores_biotype.2.2 ⟨.Dna, "ATG".toList⟩ ⟨.Dna, "CCT".toList⟩ (by decide)⟩

/-- C4: addition of two Sequences succeeds exactly on equal biotypes with
concatenated text; a mismatch panics with a message carrying both biotype
names; Dna "ATG" + Dna "CCT" gives Dna "ATGCCT" of length 6; addition of
a Sequence with convertible text always succeeds, keeps the left
biotype, and appends the text. -/
theorem C4_addition_rules :
    (∀ a b : Sequence, a.biotype = b.biotype →
        Sequence.add a b = .ok ⟨a.biotype, a.seq ++ b.seq⟩) ∧
    (∀ a b : Sequence, a.biotype ≠ b.biotype →
        ∃ msg, Sequence.add a b = .fatal msg ∧
          a.biotype.display.data <:+: msg.data ∧ b.biotype.display.data <:+: msg.data) ∧
    (Sequence.add ⟨.Dna, "ATG".toList⟩ ⟨.Dna, "CCT".toList⟩ = .ok ⟨.Dna, "ATGCCT".toList⟩ ∧
      Sequence.len ⟨.Dna, "ATGCCT".toList⟩ = 6) ∧
    (∀ (a : Sequence) (t : List Char), Sequence.addText a t = ⟨a.biotype, a.seq ++ t⟩) := by
  refine ⟨fun a b h => ?_, fun a b h => ?_, ⟨by decide, by decide⟩, fun a t => rfl⟩
  · simp [Sequence.add, h]
  · refine ⟨"类型错误" ++ a.biotype.display ++ "加到" ++ b.biotype.display, ?_, ?_, ?_⟩
    · simp [Sequence.add, h]
    · exact ⟨"类型错误".data, "加到".data ++ b.biotype.display.data, by simp⟩
    · exact ⟨"类型错误".data ++ a.biotype.display.data ++ "加到".data, [], by simp⟩

/-- Witness for C4 at concrete inputs. -/
theorem C4_addition_rules_witness :
    Sequence.add ⟨.Dna, "A".toList⟩ ⟨.Dna, "G".toList⟩ = .ok ⟨.Dna, "AG".toList⟩ ∧
    ∃ msg, Sequence.add ⟨.Dna, "A".toList⟩ ⟨.Rna, "G".toList⟩ = .fatal msg ∧
      (BioType.Dna.display.data <:+: msg.data ∧ BioType.Rna.display.data <:+: msg.data) :=
  ⟨C4_addition_rules.1 ⟨.Dna, "A".toList⟩ ⟨.Dna, "G".toList⟩ rfl,
   by
    obtain ⟨msg, h1, h2, h3⟩ :=
      C4_addition_rules.2.1 ⟨.Dna, "A".toList⟩ ⟨.Rna, "G".toList⟩ (by decide)
    exact ⟨msg, h1, h2, h3⟩⟩

/-- C3: back_transcription on an Rna Sequence succeeds with the text
uppercased and U replaced by T, the biotype left as Rna; on a Dna or
Protein Sequence it returns an error whose message contains that
biotype's display name. -/
theorem C3_back_transcription_behavior :
    (∀ s : Sequence, s.biotype = .Rna →
        s.back_transcription = .ok ⟨.Rna, replaceChar 'U' 'T' (upperChars s.seq)⟩) ∧
    (∀ s : Sequence, s.biotype = .Dna ∨ s.biotype = .Protein →
        ∃ msg, s.back_transcription = .error msg ∧ s.biotype.display.data <:+: msg.data) := by
  constructor
  · intro s h
    obtain ⟨bt, l⟩ := s
    cases bt with
    | Rna => rfl
    | Dna => simp at h
    | Protein => simp at h
  · intro s h
    obtain ⟨bt, l⟩ := s
    refine ⟨"你不能逆转录一段" ++ bt.display ++ "序列", ?_,
      ⟨"你不能逆转录一段".data, "序列".data, by simp⟩⟩
    cases bt with
    | Rna => rcases h with h | h <;> simp at h
    | Dna => rfl
    | Protein => rfl

/-- Witness for C3 at concrete inputs. -/
theorem C3_back_transcription_behavior_witness :
    Sequence.back_transcription ⟨.Rna, "augu".toList⟩ =
      .ok ⟨.Rna, replaceChar 'U' 'T' (upperChars "augu".toList)⟩ ∧
    ∃ msg, Sequence.back_transcription ⟨.Dna, "ATG".toList⟩ = .error msg ∧
      BioType.Dna.display.data <:+: msg.data :=
  ⟨C3_back_transcription_behavior.1 ⟨.Rna, "augu".toList⟩ rfl,
   by
    obtain ⟨msg, h1, h2⟩ :=
      C3_back_transcription_behavior.2 ⟨.Dna, "ATG".toList⟩ (Or.inl rfl)
    exact ⟨msg, h1, h2⟩⟩

/-- C8: transcribe on a Dna Sequence succeeds with biotype Rna and the
text uppercased with T replaced by U; the substitution preserves length
and maps the {A,G,C,T} alphabet into {A,G,C,U}; on an Rna or Protein
Sequence it returns an error whose message contains that biotype's
display name. -/
theorem C8_transcribe_behavior :
    (∀ s : Sequence, s.biotype = .Dna →
        s.transcribe = .ok ⟨.Rna, replaceChar 'T' 'U' (upperChars s.seq)⟩) ∧
    (∀ l : List Char, (replaceChar 'T' 'U' (upperChars l)).length = l.length) ∧
    (∀ l : List Char, (∀ c ∈ l, c = 'A' ∨ c = 'G' ∨ c = 'C' ∨ c = 'T') →
        ∀ d ∈ replaceChar 'T' 'U' (upperChars l), d = 'A' ∨ d = 'G' ∨ d = 'C' ∨ d = 'U') ∧
    (∀ s : Sequence, s.biotype = .Rna ∨ s.biotype = .Protein →
        ∃ msg, s.transcribe = .error msg ∧ s.biotype.display.data <:+: msg.data) := by
  refine ⟨?_, ?_, ?_, ?_⟩
  · intro s h
    obtain ⟨bt, l⟩ := s
    cases bt with
    | Dna => rfl
    | Rna => simp at h
    | Protein => simp at h
  · intro l
    simp [replaceChar, upperChars]
  · intro l hl d hd
    simp only [replaceChar, upperChars, List.map_map] at hd
    obtain ⟨c, hc, hcd⟩ := List.mem_map.mp hd
    rcases hl c hc with rfl | rfl | rfl | rfl <;> subst hcd <;> decide
  · intro s h
    obtain ⟨bt, l⟩ := s
    refine ⟨"你不能转录一段" ++ bt.display ++ "序列", ?_,
      ⟨"你不能转录一段".data, "序列".data, by simp⟩⟩
    cases bt with
    | Dna => rcases h with h | h <;> simp at h
    | Rna => rfl
    | Protein => rfl

/-- Witness for C8 at concrete inputs. -/
theorem C8_transcribe_behavior_witness :
    Sequence.transcribe ⟨.Dna, "atg".toList⟩ =
      .ok ⟨.Rna, replaceChar 'T' 'U' (upperChars "atg".toList)⟩ ∧
    (∀ d ∈ replaceChar 'T' 'U' (upperChars "ATGC".toList),
        d = 'A' ∨ d = 'G' ∨ d = 'C' ∨ d = 'U') ∧
    ∃ msg, Sequence.transcribe ⟨.Rna, "AUG".toList⟩ = .error msg ∧
      BioType.Rna.display.data <:+: msg.data :=
  ⟨C8_transcribe_behavior.1 ⟨.Dna, "atg".toList⟩ rfl,
   C8_transcribe_behavior.2.2.1 "ATGC".toList (by decide),
   by
    obtain ⟨msg, h1, h2⟩ := C8_transcribe_behavior.2.2.2 ⟨.Rna, "AUG".toList⟩ (Or.inl rfl)
    exact ⟨msg, h1, h2⟩⟩

/-- C6: reverse_complementary returns the character-reversal of
complementary's text with the same biotype when complementary succeeds,
and propagates complementary's error unchanged when it fails. -/
theorem C6_reverse_complementary_relation :
    ∀ s : Sequence,
      (∀ t : Sequence, s.complementary = .ok t →
          s.reverse_complementary = .ok ⟨t.biotype, t.seq.reverse⟩) ∧
      (∀ e : String, s.complementary = .error e → s.reverse_complementary = .error e) := by
  intro s
  constructor
  · intro t ht
    simp [Sequence.reverse_complementary, ht, Except.map]
  · intro e he
    simp [Sequence.reverse_complementary, he, Except.map]

/-- Witness for C6 at concrete inputs. -/
theorem C6_reverse_complementary_relation_witness :
    Sequence.reverse_complementary ⟨.Dna, "ATGC".toList⟩ =
      .ok ⟨.Dna, "TACG".toList.reverse⟩ ∧
    Sequence.reverse_complementary ⟨.Dna, "ATGX".toList⟩ =
      .error "Invalid DNA base: X" :=
  ⟨(C6_reverse_complementary_relation ⟨.Dna, "ATGC".toList⟩).1 ⟨.Dna, "TACG".toList⟩ rfl,
   (C6_reverse_complementary_relation ⟨.Dna, "ATGX".toList⟩).2 "Invalid DNA base: X" rfl⟩

/-- A character is missing from the DNA pairing table exactly when it is
outside the upper-case DNA alphabet. -/
theorem lookup_dna_none_iff (c : Char) :
    List.lookup c DNA_BASE_PAIRING = none ↔ c ∉ (['A', 'T', 'G', 'C'] : List Char) := by
  by_cases h1 : c = 'A'
  · subst h1; decide
  by_cases h2 : c = 'T'
  · subst h2; decide
  by_cases h3 : c = 'G'
  · subst h3; decide
  by_cases h4 : c = 'C'
  · subst h4; decide
  have e1 : (c == 'A') = false := beq_eq_false_iff_ne.mpr h1
  have e2 : (c == 'T') = false := beq_eq_false_iff_ne.mpr h2
  have e3 : (c == 'G') = false := beq_eq_false_iff_ne.mpr h3
  have e4 : (c == 'C') = false := beq_eq_false_iff_ne.mpr h4
  simp [DNA_BASE_PAIRING, List.lookup, e1, e2, e3, e4, h1, h2, h3, h4]

/-- A character is missing from the RNA pairing table exactly when it is
outside the upper-case RNA alphabet. -/
theorem lookup_rna_none_iff (c : Char) :
    List.lookup c RNA_BASE_PAIRING = none ↔ c ∉ (['A', 'U', 'G', 'C'] : List Char) := by
  by_cases h1 : c = 'A'
  · subst h1; decide
  by_cases h2 : c = 'U'
  · subst h2; decide
  by_cases h3 : c = 'G'
  · subst h3; decide
  by_cases h4 : c = 'C'
  · subst h4; decide
  have e1 : (c == 'A') = false := beq_eq_false_iff_ne.mpr h1
  have e2 : (c == 'U') = false := beq_eq_false_iff_ne.mpr h2
  have e3 : (c == 'G') = false := beq_eq_false_iff_ne.mpr h3
  have e4 : (c == 'C') = false := beq_eq_false_iff_ne.mpr h4
  simp [RNA_BASE_PAIRING, List.lookup, e1, e2, e3, e4, h1, h2, h3, h4]

/-- C7: complementary on a Dna or Rna Sequence errors exactly when the
uppercased text has a character outside that biotype's 4-letter alphabet;
the error names the first invalid base and the biotype; a Protein
receiver always errors with a message naming PROTEIN. -/
theorem C7_complementary_errors :
    (∀ s : Sequence, s.biotype = .Dna →
        ((∃ e, s.complementary = .error e) ↔
          ∃ c ∈ upperChars s.seq, c ∉ (['A', 'T', 'G', 'C'] : List Char))) ∧
    (∀ (s : Sequence) (c : Char), s.biotype = .Dna →
        (upperChars s.seq).find? (fun x => (List.lookup x DNA_BASE_PAIRING).isNone) = some c →
        s.complementary = .error ("Invalid " ++ "DNA" ++ " base: " ++ c.toString)) ∧
    (∀ s : Sequence, s.biotype = .Rna →
        ((∃ e, s.complementary = .error e) ↔
          ∃ c ∈ upperChars s.seq, c ∉ (['A', 'U', 'G', 'C'] : List Char))) ∧
    (∀ (s : Sequence) (c : Char), s.biotype = .Rna →
        (upperChars s.seq).find? (fun x => (List.lookup x RNA_BASE_PAIRING).isNone) = some c →
        s.complementary = .error ("Invalid " ++ "RNA" ++ " base: " ++ c.toString)) ∧
    (Sequence.complementary ⟨.Dna, "ATGX".toList⟩ = .error "Invalid DNA base: X") ∧
    (∀ s : Sequence, s.biotype = .Protein →
        ∃ msg, s.complementary = .error msg ∧ BioType.Protein.display.data <:+: msg.data) := by
  refine ⟨?_, ?_, ?_, ?_, rfl, ?_⟩
  · intro s hb
    obtain ⟨bt, l⟩ := s
    cases bt with
    | Dna =>
      constructor
      · rintro ⟨e, he⟩
        by_contra hno
        push_neg at hno
        have hall : ∀ c ∈ upperChars l, (List.lookup c DNA_BASE_PAIRING).isSome := by
          intro c hc
          cases hx : List.lookup c DNA_BASE_PAIRING with
          | some d => rfl
          | none => exact absurd (hno c hc) (by simpa using (lookup_dna_none_iff c).mp hx)
        have hok := complementChars_ok DNA_BASE_PAIRING "DNA" (upperChars l) hall
        simp [Sequence.complementary, hok, Except.map] at he
      · rintro ⟨c, hc, hcn⟩
        have hfind : ((upperChars l).find?
            (fun x => (List.lookup x DNA_BASE_PAIRING).isNone)).isSome :=
          List.find?_isSome.mpr ⟨c, hc, by simp [(lookup_dna_none_iff c).mpr hcn]⟩
        obtain ⟨c0, hc0⟩ := Option.isSome_iff_exists.mp hfind
        have herr := complementChars_error DNA_BASE_PAIRING "DNA" (upperChars l) c0 hc0
        refine ⟨"Invalid " ++ "DNA" ++ " base: " ++ c0.toString, ?_⟩
        simp [Sequence.complementary, herr, Except.map]
    | Rna => simp at hb
    | Protein => simp at hb
  · intro s c hb hfind
    obtain ⟨bt, l⟩ := s
    cases bt with
    | Dna =>
      have herr := complementChars_error DNA_BASE_PAIRING "DNA" (upperChars l) c hfind
      simp [Sequence.complementary, herr, Except.map]
    | Rna => simp at hb
    | Protein => simp at hb
  · intro s hb
    obtain ⟨bt, l⟩ := s
    cases bt with
    | Rna =>
      constructor
      · rintro ⟨e, he⟩
        by_contra hno
        push_neg at hno
        have hall : ∀ c ∈ upperChars l, (List.lookup c RNA_BASE_PAIRING).isSome := by
          intro c hc
          cases hx : List.lookup c RNA_BASE_PAIRING with
          | some d => rfl
          | none => exact absurd (hno c hc) (by simpa using (lookup_rna_none_iff c).mp hx)
        have hok := complementChars_ok RNA_BASE_PAIRING "RNA" (upperChars l) hall
        simp [Sequence.complementary, hok, Except.map] at he
      · rintro ⟨c, hc, hcn⟩
        have hfind : ((upperChars l).find?
            (fun x => (List.lookup x RNA_BASE_PAIRING).isNone)).isSome :=
          List.find?_isSome.mpr ⟨c, hc, by simp [(lookup_rna_none_iff c).mpr hcn]⟩
        obtain ⟨c0, hc0⟩ := Option.isSome_iff_exists.mp hfind
        have herr := complementChars_error RNA_BASE_PAIRING "RNA" (upperChars l) c0 hc0
        refine ⟨"Invalid " ++ "RNA" ++ " base: " ++ c0.toString, ?_⟩
        simp [Sequence.complementary, herr, Except.map]
    | Dna => simp at hb
    | Protein => simp at hb
  · intro s c hb hfind
    obtain ⟨bt, l⟩ := s
    cases bt with
    | Rna =>
      have herr := complementChars_error RNA_BASE_PAIRING "RNA" (upperChars l) c hfind
      simp [Sequence.complementary, herr, Except.map]
    | Dna => simp at hb
    | Protein => simp at hb
  · intro s hb
    obtain ⟨bt, l⟩ := s
    cases bt with
    | Protein =>
      refine ⟨"你不能反向互补一段 " ++ BioType.Protein.display ++ " 序列", rfl,
        ⟨"你不能反向互补一段 ".data, " 序列".data, by simp⟩⟩
    | Dna => simp at hb
    | Rna => simp at hb

/-- Witness for C7 at concrete inputs. -/
theorem C7_complementary_errors_witness :
    (∃ e, Sequence.complementary ⟨.Dna, "ATGX".toList⟩ = .error e) ∧
    Sequence.complementary ⟨.Dna, "ATGX".toList⟩ =
      .error ("Invalid " ++ "DNA" ++ " base: " ++ 'X'.toString) ∧
    ∃ msg, Sequence.complementary ⟨.Protein, "MF".toList⟩ = .error msg ∧
      BioType.Protein.display.data <:+: msg.data :=
  ⟨(C7_complementary_errors.1 ⟨.Dna, "ATGX".toList⟩ rfl).mpr ⟨'X', by decide, by decide⟩,
   C7_complementary_errors.2.1 ⟨.Dna, "ATGX".toList⟩ 'X' rfl (by decide),
   C7_complementary_errors.2.2.2.2.2 ⟨.Protein, "MF".toList⟩ rfl⟩

/-- C5: on a Dna or Rna Sequence whose text is drawn from the upper-case
4-letter alphabet of its biotype, complementary succeeds, and applying
complementary to the result succeeds again with the original text. -/
theorem C5_double_complement :
    (∀ s : Sequence, s.biotype = .Dna →
        (∀ c ∈ s.seq, c = 'A' ∨ c = 'T' ∨ c = 'G' ∨ c = 'C') →
        ∃ t : Sequence, s.complementary = .ok t ∧ t.complementary = .ok ⟨.Dna, s.seq⟩) ∧
    (∀ s : Sequence, s.biotype = .Rna →
        (∀ c ∈ s.seq, c = 'A' ∨ c = 'U' ∨ c = 'G' ∨ c = 'C') →
        ∃ t : Sequence, s.complementary = .ok t ∧ t.complementary = .ok ⟨.Rna, s.seq⟩) := by
  constructor
  · intro s hb hl
    obtain ⟨bt, l⟩ := s
    cases bt with
    | Rna => simp at hb
    | Protein => simp at hb
    | Dna =>
      replace hl : ∀ c ∈ l, c = 'A' ∨ c = 'T' ∨ c = 'G' ∨ c = 'C' := hl
      have hupper : upperChars l = l :=
        map_id_of_mem l (fun c hc => by rcases hl c hc with rfl | rfl | rfl | rfl <;> decide)
      have hok1 := complementChars_ok DNA_BASE_PAIRING "DNA" l
        (fun c hc => by rcases hl c hc with rfl | rfl | rfl | rfl <;> decide)
      refine ⟨⟨.Dna, l.map (compSub DNA_BASE_PAIRING)⟩, ?_, ?_⟩
      · simp [Sequence.complementary, upperChars] at hupper ⊢
        simp [hupper, hok1, Except.map]
      · have hupper2 : upperChars (l.map (compSub DNA_BASE_PAIRING)) =
            l.map (compSub DNA_BASE_PAIRING) := by
          refine map_id_of_mem _ (fun c hc => ?_)
          obtain ⟨a, ha, rfl⟩ := List.mem_map.mp hc
          rcases hl a ha with rfl | rfl | rfl | rfl <;> decide
        have hok2 := complementChars_ok DNA_BASE_PAIRING "DNA" (l.map (compSub DNA_BASE_PAIRING))
          (fun c hc => by
            obtain ⟨a, ha, rfl⟩ := List.mem_map.mp hc
            rcases hl a ha with rfl | rfl | rfl | rfl <;> decide)
        have hround : (l.map (compSub DNA_BASE_PAIRING)).map (compSub DNA_BASE_PAIRING) = l := by
          rw [List.map_map]
          exact map_id_of_mem l
            (fun c hc => by rcases hl c hc with rfl | rfl | rfl | rfl <;> decide)
        simp only [Sequence.complementary]
        rw [hupper2, hok2]
        simp [Except.map, hround]
  · intro s hb hl
    obtain ⟨bt, l⟩ := s
    cases bt with
    | Dna => simp at hb
    | Protein => simp at hb
    | Rna =>
      replace hl : ∀ c ∈ l, c = 'A' ∨ c = 'U' ∨ c = 'G' ∨ c = 'C' := hl
      have hupper : upperChars l = l :=
        map_id_of_mem l (fun c hc => by rcases hl c hc with rfl | rfl | rfl | rfl <;> decide)
      have hok1 := complementChars_ok RNA_BASE_PAIRING "RNA" l
        (fun c hc => by rcases hl c hc with rfl | rfl | rfl | rfl <;> decide)
      refine ⟨⟨.Rna, l.map (compSub RNA_BASE_PAIRING)⟩, ?_, ?_⟩
      · simp [Sequence.complementary, upperChars] at hupper ⊢
        simp [hupper, hok1, Except.map]
      · have hupper2 : upperChars (l.map (compSub RNA_BASE_PAIRING)) =
            l.map (compSub RNA_BASE_PAIRING) := by
          refine map_id_of_mem _ (fun c hc => ?_)
          obtain ⟨a, ha, rfl⟩ := List.mem_map.mp hc
          rcases hl a ha with rfl | rfl | rfl | rfl <;> decide
        have hok2 := complementChars_ok RNA_BASE_PAIRING "RNA" (l.map (compSub RNA_BASE_PAIRING))
          (fun c hc => by
            obtain ⟨a, ha, rfl⟩ := List.mem_map.mp hc
            rcases hl a ha with rfl | rfl | rfl | rfl <;> decide)
        have hround : (l.map (compSub RNA_BASE_PAIRING)).map (compSub RNA_BASE_PAIRING) = l := by
          rw [List.map_map]
          exact map_id_of_mem l
            (fun c hc => by rcases hl c hc with rfl | rfl | rfl | rfl <;> decide)
        simp only [Sequence.complementary]
        rw [hupper2, hok2]
        simp [Except.map, hround]

/-- Witness for C5 at concrete inputs. -/
theorem C5_double_complement_witness :
    (∃ t : Sequence, Sequence.complementary ⟨.Dna, "ATGC".toList⟩ = .ok t ∧
        t.complementary = .ok ⟨.Dna, "ATGC".toList⟩) ∧
    (∃ t : Sequence, Sequence.complementary ⟨.Rna, "AUGC".toList⟩ = .ok t ∧
        t.complementary = .ok ⟨.Rna, "AUGC".toList⟩) :=
  ⟨C5_double_complement.1 ⟨.Dna, "ATGC".toList⟩ rfl (by decide),
   C5_double_complement.2 ⟨.Rna, "AUGC".toList⟩ rfl (by decide)⟩

/-- C10: change(index, ch) always succeeds: when `index` is the byte
offset of the start of the character at position `k`, that character is
replaced and all others are copied; when no character starts at byte
offset `index` (including out-of-range offsets), the Sequence is left
unchanged. -/
theorem C10_change_behavior :
    ∀ (s : Sequence) (index : Nat) (ch : Char),
      (∀ k, k < s.seq.length → bytePos s.seq k = index →
          Sequence.change s index ch = ⟨s.biotype, s.seq.set k ch⟩) ∧
      ((∀ k, k < s.seq.length → bytePos s.seq k ≠ index) →
          Sequence.change s index ch = s) := by
  intro s index ch
  constructor
  · intro k hk hpos
    unfold Sequence.change
    rw [changeChars_match s.seq 0 index ch k hk (by simpa using hpos)]
  · intro h
    unfold Sequence.change
    rw [changeChars_nomatch s.seq 0 index ch (fun k hk => by simpa using h k hk)]

/-- Witness for C10 at concrete inputs. -/
theorem C10_change_behavior_witness :
    Sequence.change ⟨.Dna, "ATG".toList⟩ 1 'X' = ⟨.Dna, "ATG".toList.set 1 'X'⟩ ∧
    Sequence.change ⟨.Dna, "ATG".toList⟩ 7 'X' = ⟨.Dna, "ATG".toList⟩ :=
  ⟨(C10_change_behavior ⟨.Dna, "ATG".toList⟩ 1 'X').1 1 (by decide) (by decide),
   (C10_change_behavior ⟨.Dna, "ATG".toList⟩ 7 'X').2 (by
      intro k hk
      have h3 : k < 3 := by simpa using hk
      interval_cases k <;> decide)⟩

/-- C1 counterexample: on the Dna Sequence "ATGTTTTAA" the code returns
the transcribed text "AUGUUUUAA" labelled Protein, not the original text
"ATGTTTTAA" the claim asserts. -/
theorem C1_translate_counterexample :
    Sequence.translate ⟨.Dna, "ATGTTTTAA".toList⟩ = .ok ⟨.Protein, "AUGUUUUAA".toList⟩ ∧
    Sequence.translate ⟨.Dna, "ATGTTTTAA".toList⟩ ≠ .ok ⟨.Protein, "ATGTTTTAA".toList⟩ :=
  ⟨rfl, by decide⟩

/-- C1 (amended): for every Dna or Rna Sequence whose prepared codons
are all present in the codon table, translate returns Ok of a
Protein-labeled Sequence whose text is the nucleotide text prepared for
the codon loop — the transcription for Dna, the uppercased text for Rna —
not the accumulated protein letters; on Dna "ATGTTTTAA" the text is
"AUGUUUUAA". -/
theorem C1_translate_keeps_nucleotide_text :
    (∀ s : Sequence, s.biotype = .Dna ∨ s.biotype = .Rna →
        (∀ ch ∈ chunks3 (prepSeq s), (List.lookup (String.mk ch) CODON_TABLE).isSome) →
        s.translate = .ok ⟨.Protein, prepSeq s⟩) ∧
    Sequence.translate ⟨.Dna, "ATGTTTTAA".toList⟩ = .ok ⟨.Protein, "AUGUUUUAA".toList⟩ := by
  constructor
  · intro s hb h
    refine translate_ok s ?_ h
    rcases hb with h' | h' <;> simp [h']
  · rfl

/-- Witness for C1's amended theorem at a concrete input. -/
theorem C1_translate_keeps_nucleotide_text_witness :
    Sequence.translate ⟨.Rna, "AUGUUUUAA".toList⟩ =
      .ok ⟨.Protein, prepSeq ⟨.Rna, "AUGUUUUAA".toList⟩⟩ :=
  C1_translate_keeps_nucleotide_text.1 ⟨.Rna, "AUGUUUUAA".toList⟩ (Or.inr rfl) (by decide)

/-- C2: translate on a Dna Sequence (all codons of the transcription in
the table) returns Ok of a Protein Sequence whose text is the uppercased
text with T replaced by U — the transcription; on an Rna Sequence (all
codons of the uppercased text in the table) the returned text is the
uppercased text. The computed amino-acid string is discarded. -/
theorem C2_translate_text_is_transcription :
    (∀ s : Sequence, s.biotype = .Dna →
        (∀ ch ∈ chunks3 (replaceChar 'T' 'U' (upperChars s.seq)),
            (List.lookup (String.mk ch) CODON_TABLE).isSome) →
        s.translate = .ok ⟨.Protein, replaceChar 'T' 'U' (upperChars s.seq)⟩) ∧
    (∀ s : Sequence, s.biotype = .Rna →
        (∀ ch ∈ chunks3 (upperChars s.seq),
            (List.lookup (String.mk ch) CODON_TABLE).isSome) →
        s.translate = .ok ⟨.Protein, upperChars s.seq⟩) := by
  constructor
  · intro s hb h
    have hprep : prepSeq s = replaceChar 'T' 'U' (upperChars s.seq) := by simp [prepSeq, hb]
    have hres := translate_ok s (by simp [hb]) (by rw [hprep]; exact h)
    rw [hprep] at hres
    exact hres
  · intro s hb h
    have hprep : prepSeq s = upperChars s.seq := by simp [prepSeq, hb]
    have hres := translate_ok s (by simp [hb]) (by rw [hprep]; exact h)
    rw [hprep] at hres
    exact hres

/-- Witness for C2 at concrete inputs. -/
theorem C2_translate_text_is_transcription_witness :
    Sequence.translate ⟨.Dna, "ATGTTTTAA".toList⟩ =
      .ok ⟨.Protein, replaceChar 'T' 'U' (upperChars "ATGTTTTAA".toList)⟩ ∧
    Sequence.translate ⟨.Rna, "uuu".toList⟩ = .ok ⟨.Protein, upperChars "uuu".toList⟩ :=
  ⟨C2_translate_text_is_transcription.1 ⟨.Dna, "ATGTTTTAA".toList⟩ rfl (by decide),
   C2_translate_text_is_transcription.2 ⟨.Rna, "uuu".toList⟩ rfl (by decide)⟩
